import Mathlib

/-!
Shallow embedding of the borrow/return transaction core of the book-lending
library (source: `src/handlers/common/response.js` helper module and the
handler module that defines `borrowBook` / `returnBook` over DynamoDB).

Modelling conventions:
* DynamoDB tables are Lean lists of structures; primary-key point reads are
  `List.find?` on the `id` field; the `UserIndex` query of `returnBook`
  (key condition `userId = :userId AND status = :status`, filter
  `bookId = :bookId`) is a `List.filter` in store order, so `Items[0]` is the
  head of the filtered list.
* Timestamps are integers (days); `dueDate.setDate(dueDate.getDate() + d)`
  becomes `now + d`.
* JS numbers are `Int`; `NaN` arising in `parsePaginationParams` is modelled
  by `Option Int` with `none` for `NaN` (`Math.max` / `Math.min` / arithmetic
  propagate `NaN`, hence `none`).
* `dynamodb.transactWrite` is split into a prepare phase (the handler's reads
  and validations, producing the transaction payload) and a commit phase that
  checks every item-level condition against the state at commit time and
  applies all three writes atomically, or fails (DynamoDB raises
  `TransactionCanceledException`, which the handler maps to 409 Conflict).
  An `Update` whose expression does arithmetic on an existing attribute
  (`availableCopies - :dec`, `currentBorrowedCount + :inc`, ...) requires the
  target item to exist; inside a transaction a missing target cancels the
  whole transaction, so commit requires the book and the user to be present.
* A `Put` on an existing primary key replaces the stored item (`putRecord`).
-/

namespace BookLibrary

/-- Status values of a BorrowingRecord (openapi.yaml enum; `overdue` is
declared but never written by the handlers). -/
inductive BStatus where
  | active
  | returned
  | overdue
deriving DecidableEq, Repr

/-- The fields of a book item that the transaction core reads or writes
(books table). -/
structure Book where
  id : String
  isbn : String
  title : String
  totalCopies : Int
  availableCopies : Int
  updatedAt : Int
deriving DecidableEq, Repr

/-- The fields of a user item that the transaction core reads or writes
(users table). -/
structure User where
  id : String
  email : String
  borrowingLimit : Int
  currentBorrowedCount : Int
  updatedAt : Int
deriving DecidableEq, Repr

/-- A borrowing record as created by `borrowBook` and mutated by
`returnBook`.  `returnedAt` and `updatedAt` are absent (`none`) until the
record is returned, matching the schemaless DynamoDB item. -/
structure BorrowingRecord where
  id : String
  userId : String
  bookId : String
  bookTitle : String
  borrowedAt : Int
  dueDate : Int
  returnedAt : Option Int
  status : BStatus
  createdAt : Int
  updatedAt : Option Int
deriving DecidableEq, Repr

/-- The three DynamoDB tables. -/
structure Store where
  books : List Book
  users : List User
  records : List BorrowingRecord
deriving DecidableEq, Repr

/-- Error taxonomy of the handlers, as (HTTP status, code) pairs with the
message the handler attaches. -/
inductive ApiError where
  | badRequest (field reason : String)
  | notFound (msg : String)
  | conflict (msg : String)
deriving DecidableEq, Repr

/-- HTTP status code the handler's `createErrorResponse` call uses for each
error kind. -/
def ApiError.statusCode : ApiError → Int
  | .badRequest _ _ => 400
  | .notFound _ => 404
  | .conflict _ => 409

/-- Character class `[a-zA-Z0-9]` of the handler's id regexes. -/
def isIdChar (c : Char) : Bool := c.isAlpha || c.isDigit

/-- The handler's `bookId.match(/^bk_[a-zA-Z0-9]{6}$/)` test (the `!bookId`
falsy guard is subsumed: the empty string fails the shape test). -/
def validBookId (s : String) : Bool :=
  s.data.take 3 == "bk_".data && s.data.length == 9 && (s.data.drop 3).all isIdChar

/-- The handler's `body.userId.match(/^usr_[a-zA-Z0-9]{6}$/)` test. -/
def validUserId (s : String) : Bool :=
  s.data.take 4 == "usr_".data && s.data.length == 10 && (s.data.drop 4).all isIdChar

/-- Point read (`dynamodb.get`) on the books table. -/
def Store.getBook (s : Store) (bid : String) : Option Book :=
  s.books.find? (fun b => b.id == bid)

/-- Point read (`dynamodb.get`) on the users table. -/
def Store.getUser (s : Store) (uid : String) : Option User :=
  s.users.find? (fun u => u.id == uid)

/-- Point read on the borrowing table by primary key. -/
def Store.getRecord (s : Store) (rid : String) : Option BorrowingRecord :=
  s.records.find? (fun r => r.id == rid)

/-- The `returnBook` query: `UserIndex` key condition
`userId = :userId AND status = :status` (with `:status = 'active'`) plus
filter expression `bookId = :bookId`, in store order. -/
def Store.activeRecords (s : Store) (uid bid : String) : List BorrowingRecord :=
  s.records.filter (fun r => r.userId == uid && r.status == BStatus.active && r.bookId == bid)

/-- DynamoDB `Put`: replaces the item with the same primary key if present,
otherwise inserts. -/
def putRecord (rs : List BorrowingRecord) (r : BorrowingRecord) : List BorrowingRecord :=
  if rs.any (fun x => x.id == r.id) then
    rs.map (fun x => if x.id == r.id then r else x)
  else
    rs ++ [r]

/-- The borrow transaction payload built by `borrowBook` before its
`transactWrite`: the new record plus the keys of the two updates. -/
structure BorrowTxn where
  record : BorrowingRecord
  bookId : String
  userId : String
  now : Int
deriving DecidableEq, Repr

/-- The return transaction payload built by `returnBook`: the record selected
by the query (`Items[0]`) plus the keys of the updates. -/
structure ReturnTxn where
  record : BorrowingRecord
  bookId : String
  userId : String
  now : Int
deriving DecidableEq, Repr

/-- Effective loan duration, `body.durationDays || 14`: an absent value and the
falsy value `0` both yield 14; any other value, in range or not, is used
as-is. -/
def effectiveDuration (durationDays? : Option Int) : Int :=
  match durationDays? with
  | none => 14
  | some v => if v == 0 then 14 else v

/-- The read/validate phase of `borrowBook` (everything before
`transactWrite`).  `durationDays?` is the JSON body field. -/
def borrowPrepare (s : Store) (newId : String) (now : Int) (bookId : String)
    (userId? : Option String) (durationDays? : Option Int) :
    Except ApiError BorrowTxn :=
  if !validBookId bookId then
    .error (.badRequest "bookId" "Invalid book ID format")
  else
    match userId? with
    | none => .error (.badRequest "userId" "Invalid user ID format")
    | some userId =>
      if !validUserId userId then
        .error (.badRequest "userId" "Invalid user ID format")
      else
        match s.getBook bookId with
        | none => .error (.notFound "The requested resource was not found")
        | some book =>
          if book.availableCopies ≤ 0 then
            .error (.conflict "This book is not available for borrowing")
          else
            match s.getUser userId with
            | none => .error (.notFound "The requested resource was not found")
            | some user =>
              if user.borrowingLimit ≤ user.currentBorrowedCount then
                .error (.conflict "User has reached borrowing limit")
              else
                .ok { record :=
                        { id := newId, userId := userId, bookId := bookId
                          bookTitle := book.title, borrowedAt := now
                          dueDate := now + effectiveDuration durationDays?
                          returnedAt := none
                          status := .active, createdAt := now, updatedAt := none }
                      bookId := bookId, userId := userId, now := now }

/-- Commit of the borrow `transactWrite`: `Put` the record; `Update` the book
(decrement, condition `availableCopies > :zero`); `Update` the user
(increment, no condition).  Both updates do arithmetic on stored attributes,
so the book and user items must exist; any failure cancels the whole
transaction (`none`). -/
def commitBorrow (s : Store) (t : BorrowTxn) : Option Store :=
  match s.getBook t.bookId, s.getUser t.userId with
  | some b, some _ =>
    if 0 < b.availableCopies then
      some { books := s.books.map (fun x =>
               if x.id == t.bookId then
                 { x with availableCopies := x.availableCopies - 1, updatedAt := t.now }
               else x)
             users := s.users.map (fun x =>
               if x.id == t.userId then
                 { x with currentBorrowedCount := x.currentBorrowedCount + 1, updatedAt := t.now }
               else x)
             records := putRecord s.records t.record }
    else none
  | _, _ => none

/-- Outcome of submitting a prepared borrow transaction against state `s`:
success returns the created record (the handler's 200 body), a cancelled
transaction is the `TransactionCanceledException` branch, a 409. -/
def borrowCommitResult (s : Store) (t : BorrowTxn) :
    Except ApiError BorrowingRecord × Store :=
  match commitBorrow s t with
  | some s' => (.ok t.record, s')
  | none => (.error (.conflict "Unable to borrow book - please try again"), s)

/-- The whole `borrowBook` handler core, run sequentially (prepare and commit
against the same state). -/
def borrowBook (s : Store) (newId : String) (now : Int) (bookId : String)
    (userId? : Option String) (durationDays? : Option Int) :
    Except ApiError BorrowingRecord × Store :=
  match borrowPrepare s newId now bookId userId? durationDays? with
  | .error e => (.error e, s)
  | .ok t => borrowCommitResult s t

/-- The read/validate phase of `returnBook`: id shape checks, then the index
query; `NotFound` if no active record matches, else the transaction payload
built from `Items[0]`. -/
def returnPrepare (s : Store) (now : Int) (bookId : String)
    (userId? : Option String) : Except ApiError ReturnTxn :=
  if !validBookId bookId then
    .error (.badRequest "bookId" "Invalid book ID format")
  else
    match userId? with
    | none => .error (.badRequest "userId" "Invalid user ID format")
    | some userId =>
      if !validUserId userId then
        .error (.badRequest "userId" "Invalid user ID format")
      else
        match s.activeRecords userId bookId with
        | [] => .error (.notFound "No active borrowing record found")
        | r :: _ => .ok { record := r, bookId := bookId, userId := userId, now := now }

/-- The `returnBook` record update: `SET #status = 'returned', returnedAt =
:timestamp, updatedAt = :timestamp`. -/
def returnFlip (now : Int) (x : BorrowingRecord) : BorrowingRecord :=
  { x with status := .returned, returnedAt := some now, updatedAt := some now }

/-- Commit of the return `transactWrite`: `Update` the record (set status
`returned`, `returnedAt`; NO condition on its previous status); `Update` the
book (increment, no condition, item must exist for the arithmetic); `Update`
the user (decrement, condition `currentBorrowedCount > :zero`). -/
def commitReturn (s : Store) (t : ReturnTxn) : Option Store :=
  match s.getBook t.bookId, s.getUser t.userId with
  | some _, some u =>
    if 0 < u.currentBorrowedCount then
      some { books := s.books.map (fun x =>
               if x.id == t.bookId then
                 { x with availableCopies := x.availableCopies + 1, updatedAt := t.now }
               else x)
             users := s.users.map (fun x =>
               if x.id == t.userId then
                 { x with currentBorrowedCount := x.currentBorrowedCount - 1, updatedAt := t.now }
               else x)
             records := s.records.map (fun x =>
               if x.id == t.record.id then returnFlip t.now x else x) }
    else none
  | _, _ => none

/-- Outcome of submitting a prepared return transaction against state `s`;
the success body is built from the queried record's fields plus
`returnedAt`/`status`. -/
def returnCommitResult (s : Store) (t : ReturnTxn) :
    Except ApiError BorrowingRecord × Store :=
  match commitReturn s t with
  | some s' => (.ok { t.record with status := .returned, returnedAt := some t.now }, s')
  | none => (.error (.conflict "Unable to return book - please try again"), s)

/-- The whole `returnBook` handler core, run sequentially. -/
def returnBook (s : Store) (now : Int) (bookId : String)
    (userId? : Option String) : Except ApiError BorrowingRecord × Store :=
  match returnPrepare s now bookId userId? with
  | .error e => (.error e, s)
  | .ok t => returnCommitResult s t

/-- Interleaved execution of two return attempts racing on the same state:
both run their reads against `s`, then the two transactions are serialized
by the store. -/
def twoReturnsRace (s : Store) (now₁ now₂ : Int) (bookId : String)
    (userId? : Option String) :
    Except ApiError BorrowingRecord × Except ApiError BorrowingRecord × Store :=
  match returnPrepare s now₁ bookId userId?, returnPrepare s now₂ bookId userId? with
  | .ok t₁, .ok t₂ =>
    let o₁ := returnCommitResult s t₁
    let o₂ := returnCommitResult o₁.2 t₂
    (o₁.1, o₂.1, o₂.2)
  | .error e₁, .ok t₂ =>
    let o₂ := returnCommitResult s t₂
    (.error e₁, o₂.1, o₂.2)
  | .ok t₁, .error e₂ =>
    let o₁ := returnCommitResult s t₁
    (o₁.1, .error e₂, o₁.2)
  | .error e₁, .error e₂ => (.error e₁, .error e₂, s)

/-- Interleaved execution of two borrow attempts racing on the same state. -/
def twoBorrowsRace (s : Store) (id₁ id₂ : String) (now₁ now₂ : Int)
    (bookId : String) (u₁? u₂? : Option String) (d₁? d₂? : Option Int) :
    Except ApiError BorrowingRecord × Except ApiError BorrowingRecord × Store :=
  match borrowPrepare s id₁ now₁ bookId u₁? d₁?, borrowPrepare s id₂ now₂ bookId u₂? d₂? with
  | .ok t₁, .ok t₂ =>
    let o₁ := borrowCommitResult s t₁
    let o₂ := borrowCommitResult o₁.2 t₂
    (o₁.1, o₂.1, o₂.2)
  | .error e₁, .ok t₂ =>
    let o₂ := borrowCommitResult s t₂
    (.error e₁, o₂.1, o₂.2)
  | .ok t₁, .error e₂ =>
    let o₁ := borrowCommitResult s t₁
    (o₁.1, .error e₂, o₁.2)
  | .error e₁, .error e₂ => (.error e₁, .error e₂, s)

/-- Number of active borrowing records for a given book (the quantity the
book-rest invariant compares `availableCopies` against). -/
def activeCountForBook (rs : List BorrowingRecord) (bid : String) : Int :=
  ((rs.filter (fun r => r.bookId == bid && r.status == BStatus.active)).length : Int)

/-- Number of active borrowing records for a given user. -/
def activeCountForUser (rs : List BorrowingRecord) (uid : String) : Int :=
  ((rs.filter (fun r => r.userId == uid && r.status == BStatus.active)).length : Int)

/-- Pairwise distinctness of a key list (primary keys of a DynamoDB table
are unique). -/
def nodupKeys : List String → Bool
  | [] => true
  | k :: ks => !ks.contains k && nodupKeys ks

/-- The spec's at-rest consistency predicate: primary keys are unique, every
book satisfies `availableCopies = totalCopies − count(active records)`, and
every user satisfies `currentBorrowedCount = count(active records) ≤
borrowingLimit`. -/
def consistentStore (s : Store) : Bool :=
  nodupKeys (s.books.map (fun b => b.id)) &&
  nodupKeys (s.users.map (fun u => u.id)) &&
  nodupKeys (s.records.map (fun r => r.id)) &&
  s.books.all (fun b => b.availableCopies == b.totalCopies - activeCountForBook s.records b.id) &&
  s.users.all (fun u =>
    u.currentBorrowedCount == activeCountForUser s.records u.id &&
    u.currentBorrowedCount ≤ u.borrowingLimit)

/-! ### Pagination (`parsePaginationParams` in `common/response.js`)

A JS number that may be `NaN` is an `Option Int` (`none` = `NaN`).
`parseInt(s, 10)` skips leading whitespace, reads an optional sign and then
the longest digit run; it is `NaN` when no digit follows. -/

/-- Numeric value of a digit run. -/
def digitsToNat (ds : List Char) : Nat :=
  ds.foldl (fun a c => a * 10 + (c.toNat - 48)) 0

/-- JavaScript `parseInt(s, 10)`; `none` is `NaN`. -/
def parseIntJS (s : String) : Option Int :=
  let cs := s.data.dropWhile (fun c => c == ' ' || c == '\t' || c == '\n' || c == '\r')
  let signAndRest : Int × List Char :=
    match cs with
    | '-' :: t => (-1, t)
    | '+' :: t => (1, t)
    | _ => (1, cs)
  let ds := signAndRest.2.takeWhile Char.isDigit
  if ds.isEmpty then none
  else some (signAndRest.1 * (digitsToNat ds : Int))

/-- JavaScript `Math.max` (NaN-propagating). -/
def jsMax (a b : Option Int) : Option Int :=
  match a, b with
  | some x, some y => some (max x y)
  | _, _ => none

/-- JavaScript `Math.min` (NaN-propagating). -/
def jsMin (a b : Option Int) : Option Int :=
  match a, b with
  | some x, some y => some (min x y)
  | _, _ => none

/-- NaN-propagating subtraction. -/
def jsSub (a b : Option Int) : Option Int :=
  match a, b with
  | some x, some y => some (x - y)
  | _, _ => none

/-- NaN-propagating multiplication. -/
def jsMul (a b : Option Int) : Option Int :=
  match a, b with
  | some x, some y => some (x * y)
  | _, _ => none

/-- Query-parameter fallback `qs?.page || dflt`: an absent parameter or the falsy empty string falls
back to the default string. -/
def queryOrDefault (v? : Option String) (dflt : String) : String :=
  match v? with
  | none => dflt
  | some v => if v == "" then dflt else v

/-- The `parsePaginationParams` helper from `common/response.js`, over the `page` and
`limit` query-string parameters; result is `(page, limit, offset)` where
`none` components are `NaN`. -/
def parsePaginationParams (page? limit? : Option String) :
    Option Int × Option Int × Option Int :=
  let page := parseIntJS (queryOrDefault page? "1")
  let limit := parseIntJS (queryOrDefault limit? "20")
  let validPage := jsMax (some 1) page
  let validLimit := jsMax (some 1) (jsMin (some 100) limit)
  (validPage, validLimit, jsMul (jsSub validPage (some 1)) validLimit)

/-- The bounds claimed for the parsed pagination parameters: numeric results
with `page ≥ 1`, `1 ≤ limit ≤ 100` and `offset = (page − 1) * limit`. -/
def paginationInBounds : Option Int × Option Int × Option Int → Bool
  | (some p, some l, some o) => 1 ≤ p && 1 ≤ l && l ≤ 100 && o == (p - 1) * l
  | _ => false

/-! ### Concrete sample data

Closed stores used to instantiate the theorems: `baseStore` is a consistent
store (user `usr_000001` holds two active loans, one per book), `dupActiveStore`
violates the one-active-record-per-pair invariant with records stored out of
`borrowedAt` order, and `limitStore` holds a user at their borrowing limit. -/

def bookOne : Book :=
  { id := "bk_000001", isbn := "978-0-1111-2222-3", title := "Dune"
    totalCopies := 2, availableCopies := 1, updatedAt := 0 }

def bookTwo : Book :=
  { id := "bk_000002", isbn := "978-0-1111-2222-4", title := "Emma"
    totalCopies := 1, availableCopies := 0, updatedAt := 0 }

def bookThree : Book :=
  { id := "bk_000003", isbn := "978-0-1111-2222-5", title := "Ivanhoe"
    totalCopies := 3, availableCopies := 1, updatedAt := 0 }

def userOne : User :=
  { id := "usr_000001", email := "one@example.com"
    borrowingLimit := 5, currentBorrowedCount := 2, updatedAt := 0 }

def userTwo : User :=
  { id := "usr_000002", email := "two@example.com"
    borrowingLimit := 5, currentBorrowedCount := 2, updatedAt := 0 }

def userFull : User :=
  { id := "usr_000003", email := "full@example.com"
    borrowingLimit := 2, currentBorrowedCount := 2, updatedAt := 0 }

def recOne : BorrowingRecord :=
  { id := "brw_000001", userId := "usr_000001", bookId := "bk_000001"
    bookTitle := "Dune", borrowedAt := 0, dueDate := 14, returnedAt := none
    status := .active, createdAt := 0, updatedAt := none }

def recTwo : BorrowingRecord :=
  { id := "brw_000002", userId := "usr_000001", bookId := "bk_000002"
    bookTitle := "Emma", borrowedAt := 1, dueDate := 15, returnedAt := none
    status := .active, createdAt := 1, updatedAt := none }

def recLate : BorrowingRecord :=
  { id := "brw_000011", userId := "usr_000002", bookId := "bk_000003"
    bookTitle := "Ivanhoe", borrowedAt := 10, dueDate := 24, returnedAt := none
    status := .active, createdAt := 10, updatedAt := none }

def recEarly : BorrowingRecord :=
  { id := "brw_000012", userId := "usr_000002", bookId := "bk_000003"
    bookTitle := "Ivanhoe", borrowedAt := 5, dueDate := 19, returnedAt := none
    status := .active, createdAt := 5, updatedAt := none }

def baseStore : Store :=
  { books := [bookOne, bookTwo], users := [userOne], records := [recOne, recTwo] }

def dupActiveStore : Store :=
  { books := [bookThree], users := [userTwo], records := [recLate, recEarly] }

def limitStore : Store :=
  { books := [bookOne], users := [userFull], records := [] }

/-! ## General lemmas about the store primitives -/

/-- Key lookup (`find?`) commutes with a key-preserving map. -/
theorem find?_map_of_key_eq {α : Type} (key : α → String) (g : α → α)
    (h : ∀ x, key (g x) = key x) (k : String) (l : List α) :
    (l.map g).find? (fun x => key x == k) = (l.find? (fun x => key x == k)).map g := by
  rw [List.find?_map]
  have hcomp : ((fun x => key x == k) ∘ g) = (fun x => key x == k) := by
    funext x
    simp [Function.comp, h x]
  rw [hcomp]

/-- A key-targeted update map is the identity when the key is absent. -/
theorem map_update_of_key_not_mem {α : Type} (key : α → String) (f : α → α) (k : String) :
    ∀ l : List α, (∀ x ∈ l, key x ≠ k) →
      l.map (fun x => if key x == k then f x else x) = l := by
  intro l
  induction l with
  | nil => intro _; rfl
  | cons a t ih =>
    intro hmem
    have ha : (key a == k) = false := by
      simp [hmem a (List.mem_cons_self a t)]
    simp only [List.map_cons, ha, Bool.false_eq_true, if_false,
      ih (fun x hx => hmem x (List.mem_cons_of_mem a hx))]

/-- With pairwise-distinct keys, any member with the searched key is the
element `find?` returns. -/
theorem eq_of_mem_of_find?_nodup {α : Type} (key : α → String) :
    ∀ (l : List α) (a x : α) (k : String),
      nodupKeys (l.map key) = true →
      l.find? (fun y => key y == k) = some a →
      x ∈ l → key x = k → x = a := by
  intro l
  induction l with
  | nil => intro a x k _ hf; simp at hf
  | cons b t ih =>
    intro a x k hnd hf hx hk
    have hnd' : (t.map key).contains (key b) = false ∧ nodupKeys (t.map key) = true := by
      have : nodupKeys (key b :: t.map key) = true := by simpa using hnd
      simpa [nodupKeys, Bool.and_eq_true] using this
    by_cases hb : key b = k
    · have hf' : some b = some a := by
        have h2 : ((fun y => key y == k) b) = true := by simp [hb]
        rw [List.find?_cons_of_pos (p := fun y => key y == k) t h2] at hf
        exact hf
      have hab : b = a := by simpa using hf'
      rcases List.mem_cons.mp hx with rfl | hxt
      · exact hab
      · exfalso
        have hmem : key x ∈ t.map key := List.mem_map_of_mem key hxt
        rw [hk, ← hb] at hmem
        have hck : (t.map key).contains (key b) = true := by
          simpa using hmem
        rw [hnd'.1] at hck
        exact Bool.false_ne_true hck
    · have h2 : ¬ (((fun y => key y == k) b) = true) := by simp [hb]
      rw [List.find?_cons_of_neg (p := fun y => key y == k) t h2] at hf
      rcases List.mem_cons.mp hx with rfl | hxt
      · exact absurd hk hb
      · exact ih a x k hnd'.2 hf hxt hk

/-- When the new record's primary key is fresh, `Put` is an append. -/
theorem putRecord_of_fresh (rs : List BorrowingRecord) (r : BorrowingRecord)
    (h : ∀ x ∈ rs, x.id ≠ r.id) : putRecord rs r = rs ++ [r] := by
  unfold putRecord
  have hany : rs.any (fun x => x.id == r.id) = false := by
    rw [Bool.eq_false_iff]
    intro hc
    obtain ⟨x, hx, hxe⟩ := List.any_eq_true.mp hc
    exact h x hx (by simpa using hxe)
  rw [hany]
  simp

/-- The written record is always in the table after a `Put`. -/
theorem self_mem_putRecord (rs : List BorrowingRecord) (r : BorrowingRecord) :
    r ∈ putRecord rs r := by
  unfold putRecord
  cases hany : rs.any (fun x => x.id == r.id)
  · simp
  · obtain ⟨x, hx, hxe⟩ := List.any_eq_true.mp hany
    simp only [if_true]
    exact List.mem_map.mpr ⟨x, hx, by simp [hxe]⟩

/-- Appending one element adds its contribution to a filtered length. -/
theorem filter_length_append_singleton (p : BorrowingRecord → Bool)
    (rs : List BorrowingRecord) (r : BorrowingRecord) :
    ((rs ++ [r]).filter p).length =
      (rs.filter p).length + (if p r then 1 else 0) := by
  rw [List.filter_append]
  cases hp : p r <;> simp [hp, List.filter_cons]

/-- Flipping exactly the record with key `rid` to `returned` removes its
contribution from any `status = active` count (stated for any predicate that
rejects returned records). -/
theorem filter_length_flip (p : BorrowingRecord → Bool) (now : Int) (rid : String)
    (hp : ∀ x, p (returnFlip now x) = false) (r : BorrowingRecord) :
    ∀ rs : List BorrowingRecord,
      nodupKeys (rs.map (fun x => x.id)) = true →
      r ∈ rs → r.id = rid →
      (rs.filter p).length =
        ((rs.map (fun x => if x.id == rid then returnFlip now x else x)).filter p).length +
          (if p r then 1 else 0) := by
  intro rs
  induction rs with
  | nil => intro _ hmem; cases hmem
  | cons a t ih =>
    intro hnd hmem hid
    have hnd' : (t.map (fun x => x.id)).contains a.id = false ∧
        nodupKeys (t.map (fun x => x.id)) = true := by
      have : nodupKeys (a.id :: t.map (fun x => x.id)) = true := by simpa using hnd
      simpa [nodupKeys, Bool.and_eq_true] using this
    rcases List.mem_cons.mp hmem with rfl | hmemt
    · have ha : (r.id == rid) = true := by simp [hid]
      have htid : ∀ x ∈ t, x.id ≠ rid := by
        intro x hx hxe
        have hmemk : x.id ∈ t.map (fun x => x.id) := List.mem_map_of_mem _ hx
        rw [hxe, ← hid] at hmemk
        have hck : (t.map (fun x => x.id)).contains r.id = true := by simpa using hmemk
        rw [hnd'.1] at hck
        exact Bool.false_ne_true hck
      rw [List.map_cons, if_pos ha,
        map_update_of_key_not_mem (fun x => x.id) (returnFlip now) rid t htid]
      rw [List.filter_cons, List.filter_cons, hp r]
      cases hpr : p r <;> simp [hpr]
    · have hane : ¬ ((a.id == rid) = true) := by
        intro he
        have he' : a.id = rid := by simpa using he
        have hmemk : r.id ∈ t.map (fun x => x.id) := List.mem_map_of_mem _ hmemt
        rw [hid, ← he'] at hmemk
        have hck : (t.map (fun x => x.id)).contains a.id = true := by simpa using hmemk
        rw [hnd'.1] at hck
        exact Bool.false_ne_true hck
      rw [List.map_cons, if_neg hane]
      rw [List.filter_cons, List.filter_cons]
      have hih := ih hnd'.2 hmemt hid
      cases hpa : p a
      · rw [if_neg (by simp [hpa]), if_neg (by simp [hpa])]
        omega
      · rw [if_pos (by simp [hpa]), if_pos (by simp [hpa])]
        simp only [List.length_cons]
        omega

/-- Keys after a single-element append: fresh key keeps them unique. -/
theorem nodupKeys_append_singleton (k : String) :
    ∀ ks : List String, nodupKeys ks = true → ks.contains k = false →
      nodupKeys (ks ++ [k]) = true := by
  intro ks
  induction ks with
  | nil => intro _ _; simp [nodupKeys]
  | cons a t ih =>
    intro hnd hc
    have hnd' : t.contains a = false ∧ nodupKeys t = true := by
      simpa [nodupKeys, Bool.and_eq_true] using hnd
    have hco : ¬ (a = k ∨ k ∈ t) := by
      intro hor
      have hck : (a :: t).contains k = true := by
        rcases hor with rfl | hm
        · simp
        · simp [hm]
      rw [hc] at hck
      exact Bool.false_ne_true hck
    have hc2 : t.contains k = false := by
      rw [Bool.eq_false_iff]
      intro hb
      exact hco (Or.inr (by simpa using hb))
    have hgoal2 : nodupKeys (t ++ [k]) = true := ih hnd'.2 hc2
    have hgoal1 : (t ++ [k]).contains a = false := by
      rw [Bool.eq_false_iff]
      intro hb
      have hmm : a ∈ t ++ [k] := by simpa using hb
      rcases List.mem_append.mp hmm with hm | hm
      · have hca : t.contains a = true := by simpa using hm
        rw [hnd'.1] at hca
        exact Bool.false_ne_true hca
      · have hak : a = k := by simpa using hm
        exact hco (Or.inl hak)
    show nodupKeys (a :: (t ++ [k])) = true
    simp only [nodupKeys, Bool.and_eq_true, Bool.not_eq_true']
    exact ⟨hgoal1, hgoal2⟩

/-- A key-preserving map leaves the key list unchanged. -/
theorem map_keys_of_key_eq {α : Type} (key : α → String) (g : α → α)
    (h : ∀ x, key (g x) = key x) (l : List α) :
    (l.map g).map key = l.map key := by
  rw [List.map_map]
  exact List.map_congr_left (fun x _ => h x)

/-- The predicate `consistentStore` unfolded to its propositional components. -/
theorem consistentStore_iff (s : Store) : consistentStore s = true ↔
    nodupKeys (s.books.map (fun b => b.id)) = true ∧
    nodupKeys (s.users.map (fun u => u.id)) = true ∧
    nodupKeys (s.records.map (fun r => r.id)) = true ∧
    (∀ b ∈ s.books, b.availableCopies = b.totalCopies - activeCountForBook s.records b.id) ∧
    (∀ u ∈ s.users, u.currentBorrowedCount = activeCountForUser s.records u.id ∧
      u.currentBorrowedCount ≤ u.borrowingLimit) := by
  simp [consistentStore, List.all_eq_true, Bool.and_eq_true, and_assoc,
    beq_iff_eq, decide_eq_true_eq]

/-! ## Inversion lemmas for the two operations -/

/-- What must have held when the borrow prepare phase succeeded. -/
theorem borrowPrepare_ok_inv {s : Store} {newId : String} {now : Int} {bookId : String}
    {userId? : Option String} {durationDays? : Option Int} {t : BorrowTxn}
    (h : borrowPrepare s newId now bookId userId? durationDays? = .ok t) :
    ∃ userId book user,
      userId? = some userId ∧
      validBookId bookId = true ∧
      validUserId userId = true ∧
      s.getBook bookId = some book ∧
      0 < book.availableCopies ∧
      s.getUser userId = some user ∧
      user.currentBorrowedCount < user.borrowingLimit ∧
      t = { record := { id := newId, userId := userId, bookId := bookId
                        bookTitle := book.title, borrowedAt := now
                        dueDate := now + effectiveDuration durationDays?
                        returnedAt := none, status := .active
                        createdAt := now, updatedAt := none }
            bookId := bookId, userId := userId, now := now } := by
  unfold borrowPrepare at h
  split at h
  · simp at h
  · rename_i hvb
    split at h
    · simp at h
    · rename_i userId
      split at h
      · simp at h
      · rename_i hvu
        split at h
        · simp at h
        · rename_i book hgb
          split at h
          · simp at h
          · rename_i hav
            split at h
            · simp at h
            · rename_i user hgu
              split at h
              · simp at h
              · rename_i hlim
                cases h
                exact ⟨userId, book, user, rfl,
                  by simpa using hvb, by simpa using hvu, hgb,
                  by omega, hgu, by omega, rfl⟩

/-- What must have held when the return prepare phase succeeded. -/
theorem returnPrepare_ok_inv {s : Store} {now : Int} {bookId : String}
    {userId? : Option String} {t : ReturnTxn}
    (h : returnPrepare s now bookId userId? = .ok t) :
    ∃ userId r rest,
      userId? = some userId ∧
      validBookId bookId = true ∧
      validUserId userId = true ∧
      s.activeRecords userId bookId = r :: rest ∧
      t = { record := r, bookId := bookId, userId := userId, now := now } := by
  unfold returnPrepare at h
  split at h
  · simp at h
  · rename_i hvb
    split at h
    · simp at h
    · rename_i userId
      split at h
      · simp at h
      · rename_i hvu
        split at h
        · simp at h
        · rename_i r rest hact
          cases h
          exact ⟨userId, r, rest, rfl, by simpa using hvb, by simpa using hvu, hact, rfl⟩

/-- Decomposition of a successful borrow commit. -/
theorem commitBorrow_some_inv {s : Store} {t : BorrowTxn} {s' : Store}
    (h : commitBorrow s t = some s') :
    ∃ b u, s.getBook t.bookId = some b ∧ s.getUser t.userId = some u ∧
      0 < b.availableCopies ∧
      s' = { books := s.books.map (fun x =>
               if x.id == t.bookId then
                 { x with availableCopies := x.availableCopies - 1, updatedAt := t.now }
               else x)
             users := s.users.map (fun x =>
               if x.id == t.userId then
                 { x with currentBorrowedCount := x.currentBorrowedCount + 1, updatedAt := t.now }
               else x)
             records := putRecord s.records t.record } := by
  unfold commitBorrow at h
  split at h
  · rename_i b u hb hu
    split at h
    · rename_i hav
      cases h
      exact ⟨b, u, hb, hu, hav, rfl⟩
    · simp at h
  · simp at h

/-- Decomposition of a successful return commit. -/
theorem commitReturn_some_inv {s : Store} {t : ReturnTxn} {s' : Store}
    (h : commitReturn s t = some s') :
    ∃ b u, s.getBook t.bookId = some b ∧ s.getUser t.userId = some u ∧
      0 < u.currentBorrowedCount ∧
      s' = { books := s.books.map (fun x =>
               if x.id == t.bookId then
                 { x with availableCopies := x.availableCopies + 1, updatedAt := t.now }
               else x)
             users := s.users.map (fun x =>
               if x.id == t.userId then
                 { x with currentBorrowedCount := x.currentBorrowedCount - 1, updatedAt := t.now }
               else x)
             records := s.records.map (fun x =>
               if x.id == t.record.id then returnFlip t.now x else x) } := by
  unfold commitReturn at h
  split at h
  · rename_i b u hb hu
    split at h
    · rename_i hcnt
      cases h
      exact ⟨b, u, hb, hu, hcnt, rfl⟩
    · simp at h
  · simp at h

/-- A prepared borrow always commits against the unchanged state (sequential
run): its read-phase checks imply the write-phase conditions. -/
theorem commitBorrow_of_prepare {s : Store} {newId : String} {now : Int}
    {bookId : String} {userId? : Option String} {durationDays? : Option Int}
    {t : BorrowTxn}
    (h : borrowPrepare s newId now bookId userId? durationDays? = .ok t) :
    ∃ s', commitBorrow s t = some s' := by
  obtain ⟨userId, book, user, huid, hvb, hvu, hgb, hav, hgu, hlim, ht⟩ := borrowPrepare_ok_inv h
  have hbid : t.bookId = bookId := by rw [ht]
  have huid2 : t.userId = userId := by rw [ht]
  have hnn : commitBorrow s t ≠ none := by
    unfold commitBorrow
    rw [hbid, huid2]
    simp only [hgb, hgu]
    rw [if_pos hav]
    simp
  cases hcc : commitBorrow s t with
  | none => exact absurd hcc hnn
  | some s' => exact ⟨s', rfl⟩

/-- A successful borrow decomposes into a successful prepare and commit. -/
theorem borrowBook_ok_inv {s : Store} {newId : String} {now : Int} {bookId : String}
    {userId? : Option String} {durationDays? : Option Int} {r : BorrowingRecord} {s' : Store}
    (h : borrowBook s newId now bookId userId? durationDays? = (.ok r, s')) :
    ∃ t, borrowPrepare s newId now bookId userId? durationDays? = .ok t ∧
      commitBorrow s t = some s' ∧ r = t.record := by
  unfold borrowBook at h
  split at h
  · simp at h
  · rename_i t hp
    unfold borrowCommitResult at h
    split at h
    · rename_i s'' hc
      simp only [Prod.mk.injEq] at h
      obtain ⟨h1, h2⟩ := h
      refine ⟨t, hp, ?_, ?_⟩
      · rw [← h2]; exact hc
      · exact (by simpa using h1.symm)
    · simp at h

/-- A successful return decomposes into a successful prepare and commit. -/
theorem returnBook_ok_inv {s : Store} {now : Int} {bookId : String}
    {userId? : Option String} {r : BorrowingRecord} {s' : Store}
    (h : returnBook s now bookId userId? = (.ok r, s')) :
    ∃ t, returnPrepare s now bookId userId? = .ok t ∧
      commitReturn s t = some s' ∧
      r = { t.record with status := .returned, returnedAt := some t.now } := by
  unfold returnBook at h
  split at h
  · simp at h
  · rename_i t hp
    unfold returnCommitResult at h
    split at h
    · rename_i s'' hc
      simp only [Prod.mk.injEq] at h
      obtain ⟨h1, h2⟩ := h
      refine ⟨t, hp, ?_, ?_⟩
      · rw [← h2]; exact hc
      · exact (by simpa using h1.symm)
    · simp at h

/-! ## Claim theorems -/

/-- C7: every failed borrow or return operation — a failed precondition check
or a cancelled atomic write — returns the store exactly as it received it;
only a successful commit produces a new store. -/
theorem failed_operations_leave_store_unchanged :
    (∀ (s : Store) (newId : String) (now : Int) (bookId : String)
       (userId? : Option String) (durationDays? : Option Int) (e : ApiError) (s' : Store),
       borrowBook s newId now bookId userId? durationDays? = (.error e, s') → s' = s) ∧
    (∀ (s : Store) (now : Int) (bookId : String) (userId? : Option String)
       (e : ApiError) (s' : Store),
       returnBook s now bookId userId? = (.error e, s') → s' = s) := by
  constructor
  · intro s newId now bookId userId? durationDays? e s' h
    unfold borrowBook at h
    split at h
    · simp only [Prod.mk.injEq] at h
      exact h.2.symm
    · rename_i t hp
      unfold borrowCommitResult at h
      split at h
      · simp at h
      · simp only [Prod.mk.injEq] at h
        exact h.2.symm
  · intro s now bookId userId? e s' h
    unfold returnBook at h
    split at h
    · simp only [Prod.mk.injEq] at h
      exact h.2.symm
    · rename_i t hp
      unfold returnCommitResult at h
      split at h
      · simp at h
      · simp only [Prod.mk.injEq] at h
        exact h.2.symm

/-- C7 witness: a borrow by a user at their limit fails with Conflict and the
theorem yields that the store is unchanged. -/
theorem failed_operations_leave_store_unchanged_witness :
    (borrowBook limitStore "brw_000009" 3 "bk_000001" (some "usr_000003") none).2 = limitStore :=
  failed_operations_leave_store_unchanged.1 limitStore "brw_000009" 3 "bk_000001"
    (some "usr_000003") none (.conflict "User has reached borrowing limit")
    ((borrowBook limitStore "brw_000009" 3 "bk_000001" (some "usr_000003") none).2) (by rfl)

/-- C6: `borrowBook` checks its four preconditions in order, with fresh reads
before the write: missing book → NotFound (regardless of the user); book
present but no available copy → Conflict (book unavailable, regardless of the
user); book available but missing user → NotFound; user present but at or
over the limit → Conflict (borrowing limit reached). -/
theorem borrow_precondition_checks_in_order :
    ∀ (s : Store) (newId : String) (now : Int) (bookId userId : String)
      (durationDays? : Option Int),
      validBookId bookId = true → validUserId userId = true →
      ((s.getBook bookId = none →
         (borrowBook s newId now bookId (some userId) durationDays?).1 =
           .error (.notFound "The requested resource was not found")) ∧
       (∀ b, s.getBook bookId = some b → b.availableCopies ≤ 0 →
         (borrowBook s newId now bookId (some userId) durationDays?).1 =
           .error (.conflict "This book is not available for borrowing")) ∧
       (∀ b, s.getBook bookId = some b → 0 < b.availableCopies →
         s.getUser userId = none →
         (borrowBook s newId now bookId (some userId) durationDays?).1 =
           .error (.notFound "The requested resource was not found")) ∧
       (∀ b u, s.getBook bookId = some b → 0 < b.availableCopies →
         s.getUser userId = some u → u.borrowingLimit ≤ u.currentBorrowedCount →
         (borrowBook s newId now bookId (some userId) durationDays?).1 =
           .error (.conflict "User has reached borrowing limit"))) := by
  intro s newId now bookId userId durationDays? hvb hvu
  refine ⟨?_, ?_, ?_, ?_⟩
  · intro hgb
    simp [borrowBook, borrowPrepare, hvb, hvu, hgb]
  · intro b hgb hav
    simp [borrowBook, borrowPrepare, hvb, hvu, hgb, hav]
  · intro b hgb hav hgu
    have hav' : ¬ b.availableCopies ≤ 0 := by omega
    simp [borrowBook, borrowPrepare, hvb, hvu, hgb, hgu, hav']
  · intro b u hgb hav hgu hlim
    have hav' : ¬ b.availableCopies ≤ 0 := by omega
    simp [borrowBook, borrowPrepare, hvb, hvu, hgb, hgu, hlim, hav']

/-- C6 witness: each of the four checks observed on concrete stores. -/
theorem borrow_precondition_checks_in_order_witness :
    (borrowBook baseStore "brw_000003" 2 "bk_zzzzzz" (some "usr_000001") none).1 =
      .error (.notFound "The requested resource was not found") ∧
    (borrowBook baseStore "brw_000003" 2 "bk_000002" (some "usr_000001") none).1 =
      .error (.conflict "This book is not available for borrowing") ∧
    (borrowBook baseStore "brw_000003" 2 "bk_000001" (some "usr_zzzzzz") none).1 =
      .error (.notFound "The requested resource was not found") ∧
    (borrowBook limitStore "brw_000003" 2 "bk_000001" (some "usr_000003") none).1 =
      .error (.conflict "User has reached borrowing limit") := by
  refine ⟨?_, ?_, ?_, ?_⟩
  · exact (borrow_precondition_checks_in_order baseStore "brw_000003" 2 "bk_zzzzzz"
      "usr_000001" none (by decide) (by decide)).1 (by rfl)
  · exact (borrow_precondition_checks_in_order baseStore "brw_000003" 2 "bk_000002"
      "usr_000001" none (by decide) (by decide)).2.1 bookTwo (by rfl) (by decide)
  · exact (borrow_precondition_checks_in_order baseStore "brw_000003" 2 "bk_000001"
      "usr_zzzzzz" none (by decide) (by decide)).2.2.1 bookOne (by rfl) (by decide) (by rfl)
  · exact (borrow_precondition_checks_in_order limitStore "brw_000003" 2 "bk_000001"
      "usr_000003" none (by decide) (by decide)).2.2.2 bookOne userFull (by rfl) (by decide)
      (by rfl) (by decide)

/-- C3 (code bug): two return operations racing on the same active
BorrowingRecord BOTH succeed when the user holds another active loan — the
record update in the return transaction carries no condition that the record
was still `active`, and the only guard (`currentBorrowedCount > 0` on the
user) passes while the user's count is still positive.  The book's
`availableCopies` is incremented twice (1 → 3), contradicting the claimed
exactly-one-success/one-Conflict outcome. -/
theorem double_return_race_both_succeed :
    consistentStore baseStore = true ∧
    (baseStore.getBook "bk_000001").map (fun b => b.availableCopies) = some 1 ∧
    (twoReturnsRace baseStore 5 6 "bk_000001" (some "usr_000001")).1 =
      .ok { recOne with status := .returned, returnedAt := some 5 } ∧
    (twoReturnsRace baseStore 5 6 "bk_000001" (some "usr_000001")).2.1 =
      .ok { recOne with status := .returned, returnedAt := some 6 } ∧
    ((twoReturnsRace baseStore 5 6 "bk_000001" (some "usr_000001")).2.2.getBook
        "bk_000001").map (fun b => b.availableCopies) = some 3 := by
  exact ⟨rfl, rfl, rfl, rfl, rfl⟩

/-- C9 (code bug): a borrow request with `durationDays = 50` — outside the
[1,30] range declared for `BorrowBookRequest` in `openapi.yaml` — is not
rejected: the handler performs no bound check (and no API-Gateway request
validator is configured), so the transaction core runs, reads the store and
commits a BorrowingRecord with `dueDate = borrowedAt + 50`. -/
theorem borrow_duration_outside_range_reaches_core :
    (borrowBook baseStore "brw_000003" 100 "bk_000001" (some "usr_000001") (some 50)).1 =
      .ok { id := "brw_000003", userId := "usr_000001", bookId := "bk_000001"
            bookTitle := "Dune", borrowedAt := 100, dueDate := 150, returnedAt := none
            status := .active, createdAt := 100, updatedAt := none } ∧
    (borrowBook baseStore "brw_000003" 100 "bk_000001" (some "usr_000001") (some 50)).2 ≠
      baseStore ∧
    effectiveDuration (some 0) = 14 := by
  refine ⟨rfl, by decide, rfl⟩

/-- C10 counterexample: with a non-numeric `page` parameter, `parseInt`
returns `NaN`, `Math.max(1, NaN)` is `NaN`, and so are page and offset — the
claimed bounds fail. -/
theorem pagination_nan_counterexample :
    paginationInBounds (parsePaginationParams (some "abc") none) = false ∧
    parsePaginationParams (some "abc") none = (none, some 20, none) := by
  exact ⟨rfl, rfl⟩

/-- C10 amended: whenever the `page` and `limit` parameters are absent,
empty, or have a parsable numeric prefix (so that neither `parseInt` call
yields `NaN`), the result satisfies `page ≥ 1`, `1 ≤ limit ≤ 100` (defaults
1 and 20) and `offset = (page − 1) · limit`. -/
theorem pagination_bounds_for_parsed_params (page? limit? : Option String)
    (hp : (parseIntJS (queryOrDefault page? "1")).isSome = true)
    (hl : (parseIntJS (queryOrDefault limit? "20")).isSome = true) :
    paginationInBounds (parsePaginationParams page? limit?) = true := by
  obtain ⟨p, hpe⟩ := Option.isSome_iff_exists.mp hp
  obtain ⟨l, hle⟩ := Option.isSome_iff_exists.mp hl
  unfold parsePaginationParams
  rw [hpe, hle]
  simp only [jsMax, jsMin, jsSub, jsMul, paginationInBounds,
    Bool.and_eq_true, decide_eq_true_eq]
  refine ⟨⟨⟨?_, ?_⟩, ?_⟩, ?_⟩
  · exact le_max_left 1 p
  · exact le_max_left 1 (min 100 l)
  · exact max_le (by norm_num) (min_le_left 100 l)
  · simp

/-- C10 amended witness. -/
theorem pagination_bounds_for_parsed_params_witness :
    paginationInBounds (parsePaginationParams (some "5") (some "200")) = true :=
  pagination_bounds_for_parsed_params (some "5") (some "200") rfl rfl

/-- C8 counterexample: with two active records for the same (user, book) pair
stored with the later `borrowedAt` first, `returnBook` selects `Items[0]` —
the later record — not the one with the earliest `borrowedAt`. -/
theorem return_does_not_select_earliest_counterexample :
    ¬ (∀ t, returnPrepare dupActiveStore 20 "bk_000003" (some "usr_000002") = .ok t →
        ∀ r ∈ dupActiveStore.activeRecords "usr_000002" "bk_000003",
          t.record.borrowedAt ≤ r.borrowedAt) := by
  intro hcl
  have h10 := hcl { record := recLate, bookId := "bk_000003", userId := "usr_000002", now := 20 }
    rfl recEarly (by decide)
  have : ¬ ((10 : Int) ≤ 5) := by decide
  exact this h10

/-- C8 amended: when several active records match, `returnBook` selects the
first record in store/query order (`Items[0]` of the index query), which
need not be the earliest `borrowedAt`. -/
theorem return_selects_first_queried_record (s : Store) (now : Int) (bookId userId : String)
    (r : BorrowingRecord) (rest : List BorrowingRecord)
    (hvb : validBookId bookId = true) (hvu : validUserId userId = true)
    (hq : s.activeRecords userId bookId = r :: rest) :
    returnPrepare s now bookId (some userId) =
      .ok { record := r, bookId := bookId, userId := userId, now := now } := by
  simp [returnPrepare, hvb, hvu, hq]

/-- C8 amended witness: on the two-active-record store the head of the query
(the later record) is selected. -/
theorem return_selects_first_queried_record_witness :
    returnPrepare dupActiveStore 20 "bk_000003" (some "usr_000002") =
      .ok { record := recLate, bookId := "bk_000003", userId := "usr_000002", now := 20 } :=
  return_selects_first_queried_record dupActiveStore 20 "bk_000003" "usr_000002"
    recLate [recEarly] rfl rfl rfl

/-- A key-preserving conditional update, as used by every commit. -/
theorem update_preserves_book_id (t : String) (f : Book → Book)
    (hf : ∀ x, (f x).id = x.id) :
    ∀ x : Book, (if x.id == t then f x else x).id = x.id := by
  intro x
  by_cases hx : (x.id == t) = true <;> simp [hx, hf]

/-- A key-preserving conditional update on users. -/
theorem update_preserves_user_id (t : String) (f : User → User)
    (hf : ∀ x, (f x).id = x.id) :
    ∀ x : User, (if x.id == t then f x else x).id = x.id := by
  intro x
  by_cases hx : (x.id == t) = true <;> simp [hx, hf]

/-- A key-preserving conditional update on records. -/
theorem update_preserves_record_id (t : String) (f : BorrowingRecord → BorrowingRecord)
    (hf : ∀ x, (f x).id = x.id) :
    ∀ x : BorrowingRecord, (if x.id == t then f x else x).id = x.id := by
  intro x
  by_cases hx : (x.id == t) = true <;> simp [hx, hf]

/-- With unique keys, a member is what `find?` by its own key returns. -/
theorem find?_eq_self_of_mem_nodup {α : Type} (key : α → String) :
    ∀ (l : List α) (a : α), nodupKeys (l.map key) = true → a ∈ l →
      l.find? (fun y => key y == key a) = some a := by
  intro l
  induction l with
  | nil => intro a _ h; cases h
  | cons b t ih =>
    intro a hnd hmem
    have hnd' : (t.map key).contains (key b) = false ∧ nodupKeys (t.map key) = true := by
      have hx : nodupKeys (key b :: t.map key) = true := by simpa using hnd
      simpa [nodupKeys, Bool.and_eq_true] using hx
    rcases List.mem_cons.mp hmem with rfl | hmemt
    · have h2 : ((fun y => key y == key a) a) = true := by simp
      rw [List.find?_cons_of_pos (p := fun y => key y == key a) t h2]
    · have hbk : ¬ (((fun y => key y == key a) b) = true) := by
        intro hbe
        have hbe' : key b = key a := by simpa using hbe
        have hmemk : key a ∈ t.map key := List.mem_map_of_mem key hmemt
        rw [← hbe'] at hmemk
        have hck : (t.map key).contains (key b) = true := by simpa using hmemk
        rw [hnd'.1] at hck
        exact Bool.false_ne_true hck
      rw [List.find?_cons_of_neg (p := fun y => key y == key a) t hbk]
      exact ih a hnd'.2 hmemt

/-- C4: whenever the book exists with a copy available and the user exists
below their borrowing limit (and the inputs are well-formed, with a nonzero
`durationDays`), the borrow succeeds: the response carries the new active
record with `borrowedAt = now` and `dueDate = now + durationDays`, the
book's `availableCopies` is decremented by one, the user's
`currentBorrowedCount` is incremented by one, and the new record is stored. -/
theorem borrow_success_effects (s : Store) (newId : String) (now d : Int)
    (bookId userId : String) (b : Book) (u : User)
    (hvb : validBookId bookId = true) (hvu : validUserId userId = true)
    (hgb : s.getBook bookId = some b) (hav : 0 < b.availableCopies)
    (hgu : s.getUser userId = some u) (hlim : u.currentBorrowedCount < u.borrowingLimit)
    (hd : d ≠ 0) :
    (borrowBook s newId now bookId (some userId) (some d)).1 =
      .ok { id := newId, userId := userId, bookId := bookId, bookTitle := b.title
            borrowedAt := now, dueDate := now + d, returnedAt := none
            status := .active, createdAt := now, updatedAt := none } ∧
    (borrowBook s newId now bookId (some userId) (some d)).2.getBook bookId =
      some { b with availableCopies := b.availableCopies - 1, updatedAt := now } ∧
    (borrowBook s newId now bookId (some userId) (some d)).2.getUser userId =
      some { u with currentBorrowedCount := u.currentBorrowedCount + 1, updatedAt := now } ∧
    ({ id := newId, userId := userId, bookId := bookId, bookTitle := b.title
       borrowedAt := now, dueDate := now + d, returnedAt := none
       status := .active, createdAt := now, updatedAt := none } : BorrowingRecord) ∈
      (borrowBook s newId now bookId (some userId) (some d)).2.records := by
  have hd' : (d == 0) = false := by simp [hd]
  have hav' : ¬ b.availableCopies ≤ 0 := by omega
  have hlim' : ¬ u.borrowingLimit ≤ u.currentBorrowedCount := by omega
  have hfb : List.find? (fun x => x.id == bookId) s.books = some b := by
    simpa [Store.getBook] using hgb
  have hfu : List.find? (fun x => x.id == userId) s.users = some u := by
    simpa [Store.getUser] using hgu
  have hbid : (b.id == bookId) = true := by
    have hq := List.find?_some (p := fun x : Book => x.id == bookId) hfb
    simpa using hq
  have huid : (u.id == userId) = true := by
    have hq := List.find?_some (p := fun x : User => x.id == userId) hfu
    simpa using hq
  have heff : effectiveDuration (some d) = d := by simp [effectiveDuration, hd']
  have hprep : borrowPrepare s newId now bookId (some userId) (some d) =
      .ok { record := { id := newId, userId := userId, bookId := bookId, bookTitle := b.title
                        borrowedAt := now, dueDate := now + d, returnedAt := none
                        status := .active, createdAt := now, updatedAt := none }
            bookId := bookId, userId := userId, now := now } := by
    simp [borrowPrepare, hvb, hvu, hgb, hgu, hav', hlim', heff]
  have hbb : borrowBook s newId now bookId (some userId) (some d) =
      borrowCommitResult s
        { record := { id := newId, userId := userId, bookId := bookId, bookTitle := b.title
                      borrowedAt := now, dueDate := now + d, returnedAt := none
                      status := .active, createdAt := now, updatedAt := none }
          bookId := bookId, userId := userId, now := now } := by
    unfold borrowBook
    rw [hprep]
  have hcomm : commitBorrow s
      { record := { id := newId, userId := userId, bookId := bookId, bookTitle := b.title
                    borrowedAt := now, dueDate := now + d, returnedAt := none
                    status := .active, createdAt := now, updatedAt := none }
        bookId := bookId, userId := userId, now := now } =
      some { books := s.books.map (fun x =>
               if x.id == bookId then
                 { x with availableCopies := x.availableCopies - 1, updatedAt := now }
               else x)
             users := s.users.map (fun x =>
               if x.id == userId then
                 { x with currentBorrowedCount := x.currentBorrowedCount + 1, updatedAt := now }
               else x)
             records := putRecord s.records
               { id := newId, userId := userId, bookId := bookId, bookTitle := b.title
                 borrowedAt := now, dueDate := now + d, returnedAt := none
                 status := .active, createdAt := now, updatedAt := none } } := by
    unfold commitBorrow
    simp only [hgb, hgu]
    rw [if_pos hav]
  rw [hbb]
  unfold borrowCommitResult
  rw [hcomm]
  refine ⟨rfl, ?_, ?_, ?_⟩
  · show Store.getBook _ bookId = _
    unfold Store.getBook
    rw [find?_map_of_key_eq (fun x => x.id)
      (fun x => if x.id == bookId then
        { x with availableCopies := x.availableCopies - 1, updatedAt := now } else x)
      (update_preserves_book_id bookId
        (fun x => { x with availableCopies := x.availableCopies - 1, updatedAt := now })
        (fun x => rfl)) bookId s.books]
    rw [hfb]
    have hbid' : b.id = bookId := by simpa using hbid
    simp [hbid']
  · show Store.getUser _ userId = _
    unfold Store.getUser
    rw [find?_map_of_key_eq (fun x => x.id)
      (fun x => if x.id == userId then
        { x with currentBorrowedCount := x.currentBorrowedCount + 1, updatedAt := now } else x)
      (update_preserves_user_id userId
        (fun x => { x with currentBorrowedCount := x.currentBorrowedCount + 1, updatedAt := now })
        (fun x => rfl)) userId s.users]
    rw [hfu]
    have huid' : u.id = userId := by simpa using huid
    simp [huid']
  · exact self_mem_putRecord s.records _

/-- C4 witness: borrowing `bk_000001` for `usr_000001` from the consistent
base store for 7 days. -/
theorem borrow_success_effects_witness :
    (borrowBook baseStore "brw_000003" 4 "bk_000001" (some "usr_000001") (some 7)).2.getBook
        "bk_000001" =
      some { bookOne with availableCopies := bookOne.availableCopies - 1, updatedAt := 4 } :=
  (borrow_success_effects baseStore "brw_000003" 4 7 "bk_000001" "usr_000001" bookOne userOne
    (by decide) (by decide) (by rfl) (by decide) (by rfl) (by decide) (by decide)).2.1

/-- C5: the return operation fails with NotFound exactly when no active
record matches the (book, user) pair; and when a unique active record exists
(in a store where the book and user items are present and the user's counter
is positive, as any consistent store guarantees), the return succeeds: the
record is marked `returned` with `returnedAt = now`, the book's
`availableCopies` is incremented and the user's `currentBorrowedCount` is
decremented. -/
theorem return_notfound_iff_and_success_effects :
    (∀ (s : Store) (now : Int) (bookId userId : String),
       validBookId bookId = true → validUserId userId = true →
       ((returnBook s now bookId (some userId)).1 =
           .error (.notFound "No active borrowing record found") ↔
         s.activeRecords userId bookId = [])) ∧
    (∀ (s : Store) (now : Int) (bookId userId : String) (r : BorrowingRecord)
       (b : Book) (u : User),
       validBookId bookId = true → validUserId userId = true →
       nodupKeys (s.records.map (fun x => x.id)) = true →
       s.activeRecords userId bookId = [r] →
       s.getBook bookId = some b → s.getUser userId = some u →
       0 < u.currentBorrowedCount →
       ((returnBook s now bookId (some userId)).1 =
           .ok { r with status := .returned, returnedAt := some now } ∧
        (returnBook s now bookId (some userId)).2.getBook bookId =
          some { b with availableCopies := b.availableCopies + 1, updatedAt := now } ∧
        (returnBook s now bookId (some userId)).2.getUser userId =
          some { u with currentBorrowedCount := u.currentBorrowedCount - 1, updatedAt := now } ∧
        (returnBook s now bookId (some userId)).2.getRecord r.id =
          some (returnFlip now r))) := by
  constructor
  · intro s now bookId userId hvb hvu
    cases hm : s.activeRecords userId bookId with
    | nil =>
      simp [returnBook, returnPrepare, hvb, hvu, hm]
    | cons r rest =>
      have hprep : returnPrepare s now bookId (some userId) =
          .ok { record := r, bookId := bookId, userId := userId, now := now } := by
        simp [returnPrepare, hvb, hvu, hm]
      constructor
      · intro hres
        exfalso
        unfold returnBook at hres
        rw [hprep] at hres
        dsimp only at hres
        unfold returnCommitResult at hres
        split at hres <;> simp at hres
      · intro hnil
        exact absurd hnil (by simp)
  · intro s now bookId userId r b u hvb hvu hndr hm hgb hgu hcnt
    have hprep : returnPrepare s now bookId (some userId) =
        .ok { record := r, bookId := bookId, userId := userId, now := now } := by
      simp [returnPrepare, hvb, hvu, hm]
    have hcomm : commitReturn s { record := r, bookId := bookId, userId := userId, now := now } =
        some { books := s.books.map (fun x =>
                 if x.id == bookId then
                   { x with availableCopies := x.availableCopies + 1, updatedAt := now }
                 else x)
               users := s.users.map (fun x =>
                 if x.id == userId then
                   { x with currentBorrowedCount := x.currentBorrowedCount - 1, updatedAt := now }
                 else x)
               records := s.records.map (fun x =>
                 if x.id == r.id then returnFlip now x else x) } := by
      unfold commitReturn
      simp only [hgb, hgu]
      rw [if_pos hcnt]
    have hret : returnBook s now bookId (some userId) =
        (.ok { r with status := .returned, returnedAt := some now },
         { books := s.books.map (fun x =>
             if x.id == bookId then
               { x with availableCopies := x.availableCopies + 1, updatedAt := now }
             else x)
           users := s.users.map (fun x =>
             if x.id == userId then
               { x with currentBorrowedCount := x.currentBorrowedCount - 1, updatedAt := now }
             else x)
           records := s.records.map (fun x =>
             if x.id == r.id then returnFlip now x else x) }) := by
      unfold returnBook
      rw [hprep]
      dsimp only
      unfold returnCommitResult
      rw [hcomm]
    have hfb : List.find? (fun x => x.id == bookId) s.books = some b := by
      simpa [Store.getBook] using hgb
    have hfu : List.find? (fun x => x.id == userId) s.users = some u := by
      simpa [Store.getUser] using hgu
    have hbid' : b.id = bookId := by
      have hq := List.find?_some (p := fun x : Book => x.id == bookId) hfb
      simpa using hq
    have huid' : u.id = userId := by
      have hq := List.find?_some (p := fun x : User => x.id == userId) hfu
      simpa using hq
    have hrmem : r ∈ s.records := by
      have hhd : r ∈ s.activeRecords userId bookId := by
        rw [hm]; exact List.mem_cons_self r []
      exact List.mem_of_mem_filter hhd
    have hfr : List.find? (fun y => y.id == r.id) s.records = some r := by
      have hq := find?_eq_self_of_mem_nodup (fun x => x.id) s.records r hndr hrmem
      simpa using hq
    rw [hret]
    refine ⟨rfl, ?_, ?_, ?_⟩
    · show Store.getBook _ bookId = _
      unfold Store.getBook
      rw [find?_map_of_key_eq (fun x => x.id)
        (fun x => if x.id == bookId then
          { x with availableCopies := x.availableCopies + 1, updatedAt := now } else x)
        (update_preserves_book_id bookId
          (fun x => { x with availableCopies := x.availableCopies + 1, updatedAt := now })
          (fun x => rfl)) bookId s.books]
      rw [hfb]
      simp [hbid']
    · show Store.getUser _ userId = _
      unfold Store.getUser
      rw [find?_map_of_key_eq (fun x => x.id)
        (fun x => if x.id == userId then
          { x with currentBorrowedCount := x.currentBorrowedCount - 1, updatedAt := now } else x)
        (update_preserves_user_id userId
          (fun x => { x with currentBorrowedCount := x.currentBorrowedCount - 1, updatedAt := now })
          (fun x => rfl)) userId s.users]
      rw [hfu]
      simp [huid']
    · show Store.getRecord _ r.id = _
      unfold Store.getRecord
      rw [find?_map_of_key_eq (fun x => x.id)
        (fun x => if x.id == r.id then returnFlip now x else x)
        (update_preserves_record_id r.id (returnFlip now) (fun x => rfl)) r.id s.records]
      rw [hfr]
      simp

/-- C5 witness: returning `bk_000001` for `usr_000001` from the base store,
whose only matching active record is `recOne`. -/
theorem return_notfound_iff_and_success_effects_witness :
    (returnBook baseStore 9 "bk_000001" (some "usr_000001")).1 =
      .ok { recOne with status := .returned, returnedAt := some 9 } :=
  (return_notfound_iff_and_success_effects.2 baseStore 9 "bk_000001" "usr_000001"
    recOne bookOne userOne (by decide) (by decide) (by decide) (by rfl) (by rfl) (by rfl)
    (by decide)).1

/-- C2: (i) the borrow write commits only if `availableCopies > 0` holds at
write time — the condition is re-asserted, not inherited from the earlier
read; (ii) committed borrow writes keep every `availableCopies` non-negative
(given unique book keys, as the store guarantees); (iii) so do return
commits; (iv) of two borrow transactions racing for a book with
`availableCopies = 1`, the first commit succeeds and the second fails with
Conflict. -/
theorem borrow_write_reasserts_availability :
    (∀ (s : Store) (t : BorrowTxn) (s' : Store), commitBorrow s t = some s' →
       ∃ b, s.getBook t.bookId = some b ∧ 0 < b.availableCopies) ∧
    (∀ (s : Store) (t : BorrowTxn) (s' : Store),
       nodupKeys (s.books.map (fun x => x.id)) = true →
       (∀ b ∈ s.books, 0 ≤ b.availableCopies) →
       commitBorrow s t = some s' → ∀ b ∈ s'.books, 0 ≤ b.availableCopies) ∧
    (∀ (s : Store) (t : ReturnTxn) (s' : Store),
       (∀ b ∈ s.books, 0 ≤ b.availableCopies) →
       commitReturn s t = some s' → ∀ b ∈ s'.books, 0 ≤ b.availableCopies) ∧
    (∀ (s : Store) (id₁ id₂ : String) (now₁ now₂ : Int) (bookId : String)
       (u₁? u₂? : Option String) (d₁? d₂? : Option Int) (t₁ t₂ : BorrowTxn) (b : Book),
       borrowPrepare s id₁ now₁ bookId u₁? d₁? = .ok t₁ →
       borrowPrepare s id₂ now₂ bookId u₂? d₂? = .ok t₂ →
       s.getBook bookId = some b → b.availableCopies = 1 →
       (twoBorrowsRace s id₁ id₂ now₁ now₂ bookId u₁? u₂? d₁? d₂?).1 = .ok t₁.record ∧
       (twoBorrowsRace s id₁ id₂ now₁ now₂ bookId u₁? u₂? d₁? d₂?).2.1 =
         .error (.conflict "Unable to borrow book - please try again")) := by
  refine ⟨?_, ?_, ?_, ?_⟩
  · intro s t s' h
    obtain ⟨b, u, hb, hu, hav, _⟩ := commitBorrow_some_inv h
    exact ⟨b, hb, hav⟩
  · intro s t s' hnd hpos h b' hb'
    obtain ⟨b0, u0, hb0, hu0, hav0, hs'⟩ := commitBorrow_some_inv h
    subst hs'
    simp only [List.mem_map] at hb'
    obtain ⟨x, hxmem, hxe⟩ := hb'
    by_cases hxid : (x.id == t.bookId) = true
    · have hfb : List.find? (fun y => y.id == t.bookId) s.books = some b0 := by
        simpa [Store.getBook] using hb0
      have hxeq : x = b0 :=
        eq_of_mem_of_find?_nodup (fun y => y.id) s.books b0 x t.bookId hnd hfb hxmem
          (by simpa using hxid)
      rw [← hxe]
      rw [if_pos hxid]
      simp only
      subst hxeq
      omega
    · rw [← hxe, if_neg hxid]
      exact hpos x hxmem
  · intro s t s' hpos h b' hb'
    obtain ⟨b0, u0, hb0, hu0, hcnt0, hs'⟩ := commitReturn_some_inv h
    subst hs'
    simp only [List.mem_map] at hb'
    obtain ⟨x, hxmem, hxe⟩ := hb'
    by_cases hxid : (x.id == t.bookId) = true
    · rw [← hxe, if_pos hxid]
      have := hpos x hxmem
      simp only
      omega
    · rw [← hxe, if_neg hxid]
      exact hpos x hxmem
  · intro s id₁ id₂ now₁ now₂ bookId u₁? u₂? d₁? d₂? t₁ t₂ b hp1 hp2 hgb hav
    obtain ⟨s₁, hc1⟩ := commitBorrow_of_prepare hp1
    obtain ⟨uid1, bk1, us1, _, _, _, _, _, _, _, ht1⟩ := borrowPrepare_ok_inv hp1
    obtain ⟨uid2, bk2, us2, _, _, _, _, _, _, _, ht2⟩ := borrowPrepare_ok_inv hp2
    have ht1bid : t₁.bookId = bookId := by rw [ht1]
    have ht2bid : t₂.bookId = bookId := by rw [ht2]
    obtain ⟨b0, u0, hb0, hu0, hav0, hs1⟩ := commitBorrow_some_inv hc1
    rw [ht1bid] at hb0
    have hb0b : b0 = b := by
      rw [hb0] at hgb
      exact Option.some.inj hgb
    subst hb0b
    have hfb : List.find? (fun y => y.id == bookId) s.books = some b0 := by
      simpa [Store.getBook] using hgb
    have hbid : (b0.id == bookId) = true := by
      have hq := List.find?_some (p := fun y : Book => y.id == bookId) hfb
      simpa using hq
    have hgb1 : s₁.getBook bookId =
        some { b0 with availableCopies := b0.availableCopies - 1, updatedAt := t₁.now } := by
      rw [hs1]
      show Store.getBook _ bookId = _
      unfold Store.getBook
      rw [ht1bid]
      rw [find?_map_of_key_eq (fun y => y.id)
        (fun x => if x.id == bookId then
          { x with availableCopies := x.availableCopies - 1, updatedAt := t₁.now } else x)
        (update_preserves_book_id bookId
          (fun x => { x with availableCopies := x.availableCopies - 1, updatedAt := t₁.now })
          (fun x => rfl)) bookId s.books]
      rw [hfb]
      have hbid' : b0.id = bookId := by simpa using hbid
      simp [hbid']
    have hc2 : commitBorrow s₁ t₂ = none := by
      unfold commitBorrow
      rw [ht2bid, hgb1]
      cases hgu2 : s₁.getUser t₂.userId with
      | none => rfl
      | some u2 =>
        have hno : ¬ (0 < b0.availableCopies - 1) := by omega
        simp only [if_neg hno]
    have hrace : twoBorrowsRace s id₁ id₂ now₁ now₂ bookId u₁? u₂? d₁? d₂? =
        (.ok t₁.record, .error (.conflict "Unable to borrow book - please try again"), s₁) := by
      unfold twoBorrowsRace
      rw [hp1, hp2]
      dsimp only
      unfold borrowCommitResult
      rw [hc1]
      dsimp only
      rw [hc2]
    rw [hrace]
    exact ⟨rfl, rfl⟩

/-- C2 witness: two racing borrows of the last copy of `bk_000001`; one
succeeds, the second receives Conflict. -/
theorem borrow_write_reasserts_availability_witness :
    (twoBorrowsRace baseStore "brw_000003" "brw_000004" 0 0 "bk_000001"
        (some "usr_000001") (some "usr_000001") none none).1 =
      .ok { id := "brw_000003", userId := "usr_000001", bookId := "bk_000001"
            bookTitle := "Dune", borrowedAt := 0, dueDate := 14, returnedAt := none
            status := .active, createdAt := 0, updatedAt := none } ∧
    (twoBorrowsRace baseStore "brw_000003" "brw_000004" 0 0 "bk_000001"
        (some "usr_000001") (some "usr_000001") none none).2.1 =
      .error (.conflict "Unable to borrow book - please try again") :=
  borrow_write_reasserts_availability.2.2.2 baseStore "brw_000003" "brw_000004" 0 0
    "bk_000001" (some "usr_000001") (some "usr_000001") none none
    { record := { id := "brw_000003", userId := "usr_000001", bookId := "bk_000001"
                  bookTitle := "Dune", borrowedAt := 0, dueDate := 14, returnedAt := none
                  status := .active, createdAt := 0, updatedAt := none }
      bookId := "bk_000001", userId := "usr_000001", now := 0 }
    { record := { id := "brw_000004", userId := "usr_000001", bookId := "bk_000001"
                  bookTitle := "Dune", borrowedAt := 0, dueDate := 14, returnedAt := none
                  status := .active, createdAt := 0, updatedAt := none }
      bookId := "bk_000001", userId := "usr_000001", now := 0 }
    bookOne (by rfl) (by rfl) (by rfl) (by decide)

/-- C1: starting from a consistent store (unique keys, every book's
`availableCopies = totalCopies − count(active records)`, every user's
`currentBorrowedCount = count(active records) ≤ borrowingLimit`), every
successful borrow (with a fresh record id, as generated ids are) and every
successful return yields a consistent store again; hence the invariants hold
after any sequence of borrow/return operations. -/
theorem borrow_return_preserve_store_invariants :
    (∀ (s : Store) (newId : String) (now : Int) (bookId : String)
       (userId? : Option String) (durationDays? : Option Int)
       (r : BorrowingRecord) (s' : Store),
       consistentStore s = true →
       (∀ x ∈ s.records, x.id ≠ newId) →
       borrowBook s newId now bookId userId? durationDays? = (.ok r, s') →
       consistentStore s' = true) ∧
    (∀ (s : Store) (now : Int) (bookId : String) (userId? : Option String)
       (r : BorrowingRecord) (s' : Store),
       consistentStore s = true →
       returnBook s now bookId userId? = (.ok r, s') →
       consistentStore s' = true) := by
  constructor
  · intro s newId now bookId userId? durationDays? r s' hcons hfresh hok
    obtain ⟨t, hp, hc, hr⟩ := borrowBook_ok_inv hok
    obtain ⟨userId, book, user, huidq, hvb, hvu, hgb, havb, hgu, hlim, ht⟩ :=
      borrowPrepare_ok_inv hp
    obtain ⟨b0, u0, hb0, hu0, hav0, hs'⟩ := commitBorrow_some_inv hc
    rw [consistentStore_iff] at hcons
    obtain ⟨hndb, hndu, hndr, hbooks, husers⟩ := hcons
    have htrid : t.record.id = newId := by rw [ht]
    have htbid : t.bookId = bookId := by rw [ht]
    have htuid : t.userId = userId := by rw [ht]
    have htrbid : t.record.bookId = bookId := by rw [ht]
    have htruid : t.record.userId = userId := by rw [ht]
    have htrst : t.record.status = BStatus.active := by rw [ht]
    have hput : putRecord s.records t.record = s.records ++ [t.record] := by
      apply putRecord_of_fresh
      intro x hx
      rw [htrid]
      exact hfresh x hx
    have hcntB : ∀ k, activeCountForBook (s.records ++ [t.record]) k =
        activeCountForBook s.records k + (if k = bookId then 1 else 0) := by
      intro k
      unfold activeCountForBook
      rw [filter_length_append_singleton]
      by_cases hk : k = bookId
      · simp [htrbid, htrst, hk]
      · have hcond : (t.record.bookId == k && t.record.status == BStatus.active) = false := by

          have hne : ¬ (bookId = k) := fun he => hk he.symm
          simp [htrbid, htrst, hne]
        simp [hcond, hk]
    have hcntU : ∀ k, activeCountForUser (s.records ++ [t.record]) k =
        activeCountForUser s.records k + (if k = userId then 1 else 0) := by
      intro k
      unfold activeCountForUser
      rw [filter_length_append_singleton]
      by_cases hk : k = userId
      · simp [htruid, htrst, hk]
      · have hcond : (t.record.userId == k && t.record.status == BStatus.active) = false := by

          have hne : ¬ (userId = k) := fun he => hk he.symm
          simp [htruid, htrst, hne]
        simp [hcond, hk]
    subst hs'
    rw [consistentStore_iff]
    dsimp only
    rw [hput]
    refine ⟨?_, ?_, ?_, ?_, ?_⟩
    · rw [map_keys_of_key_eq (fun y => y.id)
        (fun x => if x.id == t.bookId then
          { x with availableCopies := x.availableCopies - 1, updatedAt := t.now } else x)
        (update_preserves_book_id t.bookId
          (fun x => { x with availableCopies := x.availableCopies - 1, updatedAt := t.now })
          (fun x => rfl)) s.books]
      exact hndb
    · rw [map_keys_of_key_eq (fun y => y.id)
        (fun x => if x.id == t.userId then
          { x with currentBorrowedCount := x.currentBorrowedCount + 1, updatedAt := t.now } else x)
        (update_preserves_user_id t.userId
          (fun x => { x with currentBorrowedCount := x.currentBorrowedCount + 1, updatedAt := t.now })
          (fun x => rfl)) s.users]
      exact hndu
    · rw [List.map_append]
      have hone : List.map (fun y : BorrowingRecord => y.id) [t.record] = [newId] := by
        simp [htrid]
      rw [hone]
      apply nodupKeys_append_singleton newId _ hndr
      rw [Bool.eq_false_iff]
      intro hb
      have hmm : newId ∈ s.records.map (fun y => y.id) := by simpa using hb
      obtain ⟨x, hx, hxe⟩ := List.mem_map.mp hmm
      exact hfresh x hx hxe
    · intro b' hb'
      obtain ⟨x, hxmem, hxe⟩ := List.mem_map.mp hb'
      have hx := hbooks x hxmem
      by_cases hxid : (x.id == t.bookId) = true
      · have hxbid : x.id = bookId := by
          rw [← htbid]
          simpa using hxid
        rw [← hxe, if_pos hxid]
        dsimp only
        rw [hcntB x.id, if_pos hxbid]
        omega
      · have hxbid : ¬ (x.id = bookId) := by
          intro he
          apply hxid
          rw [htbid]
          simp [he]
        rw [← hxe, if_neg hxid]
        rw [hcntB x.id, if_neg hxbid]
        omega
    · intro u' hu'
      obtain ⟨x, hxmem, hxe⟩ := List.mem_map.mp hu'
      have hx := husers x hxmem
      by_cases hxid : (x.id == t.userId) = true
      · have hxuid : x.id = userId := by
          rw [← htuid]
          simpa using hxid
        have hfu : List.find? (fun y => y.id == userId) s.users = some user := by
          simpa [Store.getUser] using hgu
        have hxeq : x = user :=
          eq_of_mem_of_find?_nodup (fun y => y.id) s.users user x userId hndu hfu hxmem hxuid
        rw [← hxe, if_pos hxid]
        dsimp only
        rw [hcntU x.id, if_pos hxuid]
        constructor
        · omega
        · rw [hxeq]
          have := hlim
          omega
      · have hxuid : ¬ (x.id = userId) := by
          intro he
          apply hxid
          rw [htuid]
          simp [he]
        rw [← hxe, if_neg hxid]
        rw [hcntU x.id, if_neg hxuid]
        exact ⟨by omega, hx.2⟩
  · intro s now bookId userId? r s' hcons hok
    obtain ⟨t, hp, hc, hr⟩ := returnBook_ok_inv hok
    obtain ⟨userId, rec0, rest, huidq, hvb, hvu, hact, ht⟩ := returnPrepare_ok_inv hp
    obtain ⟨b0, u0, hb0, hu0, hcnt0, hs'⟩ := commitReturn_some_inv hc
    rw [consistentStore_iff] at hcons
    obtain ⟨hndb, hndu, hndr, hbooks, husers⟩ := hcons
    have htbid : t.bookId = bookId := by rw [ht]
    have htuid : t.userId = userId := by rw [ht]
    have htrec : t.record = rec0 := by rw [ht]
    have hrecmem0 : rec0 ∈ s.activeRecords userId bookId := by
      rw [hact]
      exact List.mem_cons_self rec0 rest
    have hrecmem0f : rec0 ∈ List.filter (fun y : BorrowingRecord =>
        y.userId == userId && y.status == BStatus.active && y.bookId == bookId) s.records := by
      simpa [Store.activeRecords] using hrecmem0
    have hrecmem : rec0 ∈ s.records := List.mem_of_mem_filter hrecmem0f
    have hrecp : (rec0.userId == userId && rec0.status == BStatus.active &&
        rec0.bookId == bookId) = true := by
      have hq := List.of_mem_filter hrecmem0f
      simpa using hq
    have hruid : rec0.userId = userId := by
      simp only [Bool.and_eq_true, beq_iff_eq] at hrecp
      exact hrecp.1.1
    have hrst : rec0.status = BStatus.active := by
      simp only [Bool.and_eq_true, beq_iff_eq] at hrecp
      exact hrecp.1.2
    have hrbid : rec0.bookId = bookId := by
      simp only [Bool.and_eq_true, beq_iff_eq] at hrecp
      exact hrecp.2
    have hflipB : ∀ k, activeCountForBook (s.records.map (fun x =>
        if x.id == t.record.id then returnFlip t.now x else x)) k =
        activeCountForBook s.records k - (if k = bookId then 1 else 0) := by
      intro k
      unfold activeCountForBook
      have hpflip : ∀ x : BorrowingRecord,
          ((fun y : BorrowingRecord => y.bookId == k && y.status == BStatus.active)
            (returnFlip t.now x)) = false := by
        intro x
        simp [returnFlip]
      have hq := filter_length_flip
        (fun y : BorrowingRecord => y.bookId == k && y.status == BStatus.active)
        t.now t.record.id hpflip rec0 s.records hndr hrecmem (by rw [htrec])
      by_cases hk : k = bookId
      · subst hk
        have hcond : (rec0.bookId == k && rec0.status == BStatus.active) = true := by
          simp [hrbid, hrst]
        dsimp only at hq
        rw [hcond] at hq
        have h1 : (if (true = true) then 1 else 0) = 1 := by simp
        rw [h1] at hq
        rw [if_pos rfl]
        omega
      · have hne : ¬ (rec0.bookId = k) := by
          rw [hrbid]
          exact fun he => hk he.symm
        have hcond : (rec0.bookId == k && rec0.status == BStatus.active) = false := by
          simp [hne]
        dsimp only at hq
        rw [hcond] at hq
        have h0 : (if (false = true) then 1 else 0) = 0 := by simp
        rw [h0] at hq
        rw [if_neg hk]
        omega
    have hflipU : ∀ k, activeCountForUser (s.records.map (fun x =>
        if x.id == t.record.id then returnFlip t.now x else x)) k =
        activeCountForUser s.records k - (if k = userId then 1 else 0) := by
      intro k
      unfold activeCountForUser
      have hpflip : ∀ x : BorrowingRecord,
          ((fun y : BorrowingRecord => y.userId == k && y.status == BStatus.active)
            (returnFlip t.now x)) = false := by
        intro x
        simp [returnFlip]
      have hq := filter_length_flip
        (fun y : BorrowingRecord => y.userId == k && y.status == BStatus.active)
        t.now t.record.id hpflip rec0 s.records hndr hrecmem (by rw [htrec])
      by_cases hk : k = userId
      · subst hk
        have hcond : (rec0.userId == k && rec0.status == BStatus.active) = true := by
          simp [hruid, hrst]
        dsimp only at hq
        rw [hcond] at hq
        have h1 : (if (true = true) then 1 else 0) = 1 := by simp
        rw [h1] at hq
        rw [if_pos rfl]
        omega
      · have hne : ¬ (rec0.userId = k) := by
          rw [hruid]
          exact fun he => hk he.symm
        have hcond : (rec0.userId == k && rec0.status == BStatus.active) = false := by
          simp [hne]
        dsimp only at hq
        rw [hcond] at hq
        have h0 : (if (false = true) then 1 else 0) = 0 := by simp
        rw [h0] at hq
        rw [if_neg hk]
        omega
    subst hs'
    rw [consistentStore_iff]
    dsimp only
    refine ⟨?_, ?_, ?_, ?_, ?_⟩
    · rw [map_keys_of_key_eq (fun y => y.id)
        (fun x => if x.id == t.bookId then
          { x with availableCopies := x.availableCopies + 1, updatedAt := t.now } else x)
        (update_preserves_book_id t.bookId
          (fun x => { x with availableCopies := x.availableCopies + 1, updatedAt := t.now })
          (fun x => rfl)) s.books]
      exact hndb
    · rw [map_keys_of_key_eq (fun y => y.id)
        (fun x => if x.id == t.userId then
          { x with currentBorrowedCount := x.currentBorrowedCount - 1, updatedAt := t.now } else x)
        (update_preserves_user_id t.userId
          (fun x => { x with currentBorrowedCount := x.currentBorrowedCount - 1, updatedAt := t.now })
          (fun x => rfl)) s.users]
      exact hndu
    · rw [map_keys_of_key_eq (fun y => y.id)
        (fun x => if x.id == t.record.id then returnFlip t.now x else x)
        (update_preserves_record_id t.record.id (returnFlip t.now)
          (fun x => rfl)) s.records]
      exact hndr
    · intro b' hb'
      obtain ⟨x, hxmem, hxe⟩ := List.mem_map.mp hb'
      have hx := hbooks x hxmem
      by_cases hxid : (x.id == t.bookId) = true
      · have hxbid : x.id = bookId := by
          rw [← htbid]
          simpa using hxid
        rw [← hxe, if_pos hxid]
        dsimp only
        rw [hflipB x.id, if_pos hxbid]
        omega
      · have hxbid : ¬ (x.id = bookId) := by
          intro he
          apply hxid
          rw [htbid]
          simp [he]
        rw [← hxe, if_neg hxid]
        rw [hflipB x.id, if_neg hxbid]
        omega
    · intro u' hu'
      obtain ⟨x, hxmem, hxe⟩ := List.mem_map.mp hu'
      have hx := husers x hxmem
      by_cases hxid : (x.id == t.userId) = true
      · have hxuid : x.id = userId := by
          rw [← htuid]
          simpa using hxid
        rw [← hxe, if_pos hxid]
        dsimp only
        rw [hflipU x.id, if_pos hxuid]
        exact ⟨by omega, by omega⟩
      · have hxuid : ¬ (x.id = userId) := by
          intro he
          apply hxid
          rw [htuid]
          simp [he]
        rw [← hxe, if_neg hxid]
        rw [hflipU x.id, if_neg hxuid]
        exact ⟨by omega, hx.2⟩

/-- C1 witness: a successful borrow from the consistent base store leaves it
consistent. -/
theorem borrow_return_preserve_store_invariants_witness :
    consistentStore
      (borrowBook baseStore "brw_000003" 4 "bk_000001" (some "usr_000001") (some 7)).2 = true :=
  borrow_return_preserve_store_invariants.1 baseStore "brw_000003" 4 "bk_000001"
    (some "usr_000001") (some 7)
    { id := "brw_000003", userId := "usr_000001", bookId := "bk_000001"
      bookTitle := "Dune", borrowedAt := 4, dueDate := 11, returnedAt := none
      status := .active, createdAt := 4, updatedAt := none }
    ((borrowBook baseStore "brw_000003" 4 "bk_000001" (some "usr_000001") (some 7)).2)
    (by decide) (by decide) (by rfl)

end BookLibrary
